import Mathlib

/-!
Shallow embedding of `rope-modeling/analysis/analysis_rope_state.py`.

Python strings are modelled as lists of characters (`PyStr`), a pandas
DataFrame as its header (list of column names) together with its rows
(lists of real numbers), and the filesystem as an association list from
paths to parsed CSV contents.  Python exceptions are modelled with
`Except PyError`.  Numeric cell values and the rope-length arithmetic are
modelled over the real numbers, with `Real.sqrt` for `np.sqrt`.
-/

/-- A Python string: a sequence of characters. -/
abbrev PyStr := List Char

/-- Decimal digits of `n`, least significant first, computed with enough
fuel to terminate structurally (mirrors the decimal rendering done by a
Python f-string such as `f'Particle{particle_idx}_X'`). -/
def decDigits : Nat → Nat → List Nat
  | 0, _ => []
  | fuel + 1, n => if n = 0 then [] else n % 10 :: decDigits fuel (n / 10)

/-- Decimal rendering of a natural number as a character sequence, most
significant digit first; `0` renders as `"0"`, exactly as `str(n)` does in
Python for a nonnegative `n`. -/
def natStr (n : Nat) : PyStr :=
  if n = 0 then ['0'] else ((decDigits n n).map Nat.digitChar).reverse

/-- A loaded pandas DataFrame: the CSV header and the data rows (one list
of numeric cells per row, aligned with the header). -/
structure DataFrame where
  columns : List PyStr
  rows : List (List ℝ)

/-- The filesystem visible to the script: an association list from paths
to the DataFrame that `pd.read_csv` would produce for that path. A path
is on the filesystem exactly when it has an entry. -/
structure FileSystem where
  files : List (PyStr × DataFrame)

/-- Python exceptions raised by the script. -/
inductive PyError where
  | fileNotFound (path : PyStr)
  | keyError (col : PyStr)
  | valueError (msg : PyStr)
deriving DecidableEq

/-- Model of `os.path.join(dir, name)`: the directory joined with the filename. -/
def os_path_join (dir name : PyStr) : PyStr := dir ++ '/' :: name

/-- Model of `os.path.basename(p)`: the part of the path after the last slash. -/
def os_path_basename (p : PyStr) : PyStr :=
  ((p.reverse.takeWhile (fun c => c ≠ '/')).reverse)

/-- The analyzer's state fixed at construction: configuration plus the
list of discovered simulation files (`RopeStateAnalyzer.__init__`). -/
structure RopeStateAnalyzer where
  fps : Nat
  n_particles : Nat
  csv_directory : PyStr
  simulation_files : List PyStr

/-- Model of `_find_simulation_files`: glob for `*simulation.csv` in the configured
directory, modelled over the directory's listing; returns the matching
paths (directory joined with each matching name). -/
def find_simulation_files (csv_directory : PyStr) (listing : List PyStr) : List PyStr :=
  (listing.filter (fun f => List.isSuffixOf ("simulation.csv".toList) f)).map
    (os_path_join csv_directory)

/-- Model of `load_simulation_data`: resolve the filename against the configured
directory, raise `FileNotFoundError` if the path does not exist, otherwise
parse the CSV and derive `num_steps` (row count) and `num_particles`
(count of columns whose name starts with `Particle`, divided by 3). -/
def load_simulation_data (fs : FileSystem) (a : RopeStateAnalyzer) (filename : PyStr) :
    Except PyError (DataFrame × Nat × Nat) :=
  let filepath := os_path_join a.csv_directory filename
  match fs.files.lookup filepath with
  | none => .error (.fileNotFound filepath)
  | some data =>
      let num_steps := data.rows.length
      let particle_columns := data.columns.filter
        (fun col => List.isPrefixOf ("Particle".toList) col)
      let num_particles := particle_columns.length / 3
      .ok (data, num_particles, num_steps)

/-- The column name `Particle{i}_X`. -/
def colX (i : Nat) : PyStr := ("Particle".toList) ++ natStr i ++ ("_X".toList)

/-- The column name `Particle{i}_Y`. -/
def colY (i : Nat) : PyStr := ("Particle".toList) ++ natStr i ++ ("_Y".toList)

/-- The column name `Particle{i}_Z`. -/
def colZ (i : Nat) : PyStr := ("Particle".toList) ++ natStr i ++ ("_Z".toList)

/-- Column access `data[col].values`: the series of the column named `name`, or `none`
(a `KeyError`) when no column has that name. -/
def DataFrame.col? (df : DataFrame) (name : PyStr) : Option (List ℝ) :=
  (df.columns.indexOf? name).map (fun j => df.rows.map (fun r => r.getD j 0))

/-- Model of `extract_particle_positions`: read the three series
`Particle{idx}_X`, `Particle{idx}_Y`, `Particle{idx}_Z`, raising
`KeyError` at the first missing column. -/
def extract_particle_positions (data : DataFrame) (particle_idx : Nat) :
    Except PyError (List ℝ × List ℝ × List ℝ) :=
  match data.col? (colX particle_idx) with
  | none => .error (.keyError (colX particle_idx))
  | some x_positions =>
    match data.col? (colY particle_idx) with
    | none => .error (.keyError (colY particle_idx))
    | some y_positions =>
      match data.col? (colZ particle_idx) with
      | none => .error (.keyError (colZ particle_idx))
      | some z_positions => .ok (x_positions, y_positions, z_positions)

/-- Decimal rendering of a Python int, as an f-string renders it: a
minus sign followed by the digits for negatives, `natStr` otherwise. -/
def intStr (i : Int) : PyStr :=
  if i < 0 then '-' :: natStr i.natAbs else natStr i.natAbs

/-- The column name `Particle{i}_X` for a Python int index `i` (the
trajectory-plotting code can select the index `n_particles - 1 = -1`,
which renders as `Particle-1_X`). -/
def colXInt (i : Int) : PyStr := ("Particle".toList) ++ intStr i ++ ("_X".toList)

/-- The column name `Particle{i}_Y` for a Python int index `i`. -/
def colYInt (i : Int) : PyStr := ("Particle".toList) ++ intStr i ++ ("_Y".toList)

/-- The column name `Particle{i}_Z` for a Python int index `i`. -/
def colZInt (i : Int) : PyStr := ("Particle".toList) ++ intStr i ++ ("_Z".toList)

/-- Model of `extract_particle_positions` at a Python int index, as
called from the trajectory-plotting code, where the selected indices are
ints and `n_particles - 1` is negative when the count is zero; reads the
three series, raising `KeyError` at the first missing column. -/
def extract_particle_positions_int (data : DataFrame) (particle_idx : Int) :
    Except PyError (List ℝ × List ℝ × List ℝ) :=
  match data.col? (colXInt particle_idx) with
  | none => .error (.keyError (colXInt particle_idx))
  | some x_positions =>
    match data.col? (colYInt particle_idx) with
    | none => .error (.keyError (colYInt particle_idx))
    | some y_positions =>
      match data.col? (colZInt particle_idx) with
      | none => .error (.keyError (colZInt particle_idx))
      | some z_positions => .ok (x_positions, y_positions, z_positions)

/-- One segment of the rope-length loop body of `_analyze_rope_properties`:
extract particles `i` and `i + 1` and take the Euclidean distance between
their positions at the given step. -/
noncomputable def segment_length (data : DataFrame) (step i : Nat) : Except PyError ℝ := do
  let (x1, y1, z1) ← extract_particle_positions data i
  let (x2, y2, z2) ← extract_particle_positions data (i + 1)
  pure (Real.sqrt ((x2.getD step 0 - x1.getD step 0) ^ 2 +
    (y2.getD step 0 - y1.getD step 0) ^ 2 +
    (z2.getD step 0 - z1.getD step 0) ^ 2))

/-- The inner loop of `_analyze_rope_properties`: starting from
`total_length = 0`, add the segment length for each `i` in
`range(n_particles - 1)`. -/
noncomputable def rope_length_at_step (data : DataFrame) (n_particles step : Nat) :
    Except PyError ℝ :=
  (List.range (n_particles - 1)).foldlM
    (fun total_length i => do
      let s ← segment_length data step i
      pure (total_length + s)) 0

/-- The outer loop of `_analyze_rope_properties`: the rope-length series,
one entry per step in `range(num_steps)`. -/
noncomputable def rope_lengths (data : DataFrame) (n_particles num_steps : Nat) :
    Except PyError (List ℝ) :=
  (List.range num_steps).mapM (rope_length_at_step data n_particles)

/-- Python's `min` on a list: raises `ValueError` on an empty sequence. -/
noncomputable def pyMin (l : List ℝ) : Except PyError ℝ :=
  match l with
  | [] => .error (.valueError ("min arg is an empty sequence".toList))
  | x :: xs => .ok (xs.foldl min x)

/-- Python's `max` on a list: raises `ValueError` on an empty sequence. -/
noncomputable def pyMax (l : List ℝ) : Except PyError ℝ :=
  match l with
  | [] => .error (.valueError ("max arg is an empty sequence".toList))
  | x :: xs => .ok (xs.foldl max x)

/-- Observable milestones of one `_analyze_rope_properties` run. -/
inductive AnalyzeEvent where
  | dataLoaded
  | lengthPlotSaved
  | statsPrinted
deriving DecidableEq

/-- Model of `_analyze_rope_properties`: load the file, compute the rope-length
series over the analyzer's configured `n_particles`, save the length plot,
then print statistics (which takes `min(lengths)` and `max(lengths)`).
Returns the milestones reached together with the raised exception, if
any; `savefig` happens before the statistics are computed. -/
noncomputable def analyze_rope_properties (fs : FileSystem) (a : RopeStateAnalyzer)
    (filename : PyStr) : List AnalyzeEvent × Option PyError :=
  match load_simulation_data fs a filename with
  | .error e => ([], some e)
  | .ok (data, _num_particles, num_steps) =>
    match rope_lengths data a.n_particles num_steps with
    | .error e => ([.dataLoaded], some e)
    | .ok lengths =>
      match pyMin lengths, pyMax lengths with
      | .ok _, .ok _ => ([.dataLoaded, .lengthPlotSaved, .statsPrinted], none)
      | .error e, _ => ([.dataLoaded, .lengthPlotSaved], some e)
      | .ok _, .error e => ([.dataLoaded, .lengthPlotSaved], some e)

/-- Model of `plot_trajectories`: load the file, select the plotted
indices `[0, self.n_particles // 2, self.n_particles - 1]` (Python ints,
taken from the analyzer's configured count, so the last is `-1` when the
count is zero), then extract each selected particle's positions in
order, propagating the first `KeyError`; on success the selection is the
observable result. -/
def plot_trajectories (fs : FileSystem) (a : RopeStateAnalyzer) (filename : PyStr) :
    Except PyError (List Int) :=
  match load_simulation_data fs a filename with
  | .error e => .error e
  | .ok (data, _num_particles, _num_steps) =>
    let particles_to_plot : List Int :=
      [0, (a.n_particles : Int) / 2, (a.n_particles : Int) - 1]
    match particles_to_plot.mapM (extract_particle_positions_int data) with
    | .error e => .error e
    | .ok _ => .ok particles_to_plot

/-- The fixed eight-color palette of `plot_all_trajectories_combined`. -/
def simulation_colors : List PyStr :=
  [("red".toList), ("blue".toList), ("green".toList), ("orange".toList),
   ("purple".toList), ("brown".toList), ("pink".toList), ("gray".toList)]

/-- What `plot_all_trajectories_combined` draws for one file: the file,
its assigned color, and the particle indices selected for it. -/
structure CombinedEntry where
  filename : PyStr
  color : PyStr
  particles : List Int
deriving DecidableEq

/-- Model of `plot_all_trajectories_combined`: over all discovered files
(no-op when none): for each file, under a per-file `try` that covers the
whole body, load it, choose first/middle/last as Python ints from the
file-derived `num_particles`, and extract each selected particle's
positions; any failure (loading or extraction) is caught and the file is
skipped, drawing nothing for it. A drawn file's color is
`simulation_colors[file_idx % len(simulation_colors)]`. -/
def plot_all_trajectories_combined (fs : FileSystem) (a : RopeStateAnalyzer) :
    List CombinedEntry :=
  if a.simulation_files.isEmpty then []
  else a.simulation_files.enum.filterMap (fun p =>
    match load_simulation_data fs a (os_path_basename p.2) with
    | .error _ => none
    | .ok (data, num_particles, _num_steps) =>
      let particles_to_plot : List Int :=
        [0, (num_particles : Int) / 2, (num_particles : Int) - 1]
      match particles_to_plot.mapM (extract_particle_positions_int data) with
      | .error _ => none
      | .ok _ =>
        some ⟨p.2, simulation_colors.getD (p.1 % simulation_colors.length) [],
          particles_to_plot⟩)

/-- Observable milestones of one `analyze_all_simulations` run. -/
inductive BatchEvent where
  | noFilesMessage
  | combinedPlot
  | analyzed (filename : PyStr)
  | errorLogged (filename : PyStr) (err : PyError)
deriving DecidableEq

/-- Model of `analyze_all_simulations`: with no discovered files, only a message;
otherwise the combined plot once, then `create_comprehensive_analysis`
(abstracted as `process`, applied to the basename) for every file in
order, logging the filename and error of each per-file failure and
continuing with the rest. -/
def analyze_all_simulations (process : PyStr → Except PyError Unit)
    (simulation_files : List PyStr) : List BatchEvent :=
  if simulation_files.isEmpty then [.noFilesMessage]
  else .combinedPlot :: simulation_files.map (fun filename =>
    match process (os_path_basename filename) with
    | .ok _ => .analyzed filename
    | .error e => .errorLogged filename e)

/-- Euclidean distance between two points of `ℝ × ℝ × ℝ`, as in the
spec's description of the rope-length sum. -/
noncomputable def euclidean_dist (p q : ℝ × ℝ × ℝ) : ℝ :=
  Real.sqrt ((q.1 - p.1) ^ 2 + (q.2.1 - p.2.1) ^ 2 + (q.2.2 - p.2.2) ^ 2)

/-- The CSV header mandated by the naming convention: columns
`Particle{i}_X`, `Particle{i}_Y`, `Particle{i}_Z` for `i` in `[0, n)`. -/
def particleColumns : Nat → List PyStr
  | 0 => []
  | n + 1 => particleColumns n ++ [colX n, colY n, colZ n]

/-! ### Helper lemmas: decimal rendering -/

/-- The spec's synthetic dataset: 3 particles, 1 step, particles at
`(0,0,0)`, `(1,0,0)`, `(1,1,0)`. -/
def exampleDF : DataFrame := ⟨particleColumns 3, [[0, 0, 0, 1, 0, 0, 1, 1, 0]]⟩

/-- X series of the three particles of `exampleDF`. -/
def exampleX : Nat → List ℝ := fun i => [[(0 : ℝ)], [1], [1]].getD i []

/-- Y series of the three particles of `exampleDF`. -/
def exampleY : Nat → List ℝ := fun i => [[(0 : ℝ)], [0], [1]].getD i []

/-- Z series of the three particles of `exampleDF`. -/
def exampleZ : Nat → List ℝ := fun _ => [0]

/-- A file with one data row and no `Particle*` columns: its file-derived
particle count is 0. -/
def dfNoParticles : DataFrame := ⟨[("Time".toList)], [[0]]⟩

/-- A filesystem holding `./run_simulation.csv` with `dfNoParticles`. -/
def fsC4 : FileSystem :=
  ⟨[(os_path_join (".".toList) ("run_simulation.csv".toList), dfNoParticles)]⟩

/-- An analyzer configured for 1 particle over directory `.`. -/
def analyzerC4 : RopeStateAnalyzer := ⟨30, 1, (".".toList), []⟩

/-- A scheme file with 1 particle and one step. -/
def dfOneParticle : DataFrame := ⟨particleColumns 1, [[0, 0, 0]]⟩

/-- A filesystem holding `./w_simulation.csv` with `dfOneParticle`. -/
def fsC4w : FileSystem :=
  ⟨[(os_path_join (".".toList) ("w_simulation.csv".toList), dfOneParticle)]⟩

/-- An analyzer configured for 2 particles over directory `.`. -/
def analyzerC4w : RopeStateAnalyzer := ⟨30, 2, (".".toList), []⟩

/-- A scheme file with 2 particles and zero steps. -/
def dfEmpty : DataFrame := ⟨particleColumns 2, []⟩

/-- A filesystem holding `./e_simulation.csv` with `dfEmpty`. -/
def fsC10 : FileSystem :=
  ⟨[(os_path_join (".".toList) ("e_simulation.csv".toList), dfEmpty)]⟩

/-- Per-file processing for the C5 witness: fails exactly on the file
named `bad_simulation.csv`. -/
def processC5 : PyStr → Except PyError Unit :=
  fun f => if f = ("bad_simulation.csv".toList) then .error (.valueError ("boom".toList))
    else .ok ()

/-- Discovered files for the C5 witness: one failing, one succeeding. -/
def filesC5 : List PyStr :=
  [("dir/bad_simulation.csv".toList), ("dir/good_simulation.csv".toList)]

/-- The analyzer for the C8 witness: configured for 2 particles, with
one discovered file. -/
def analyzerC8 : RopeStateAnalyzer := ⟨30, 2, (".".toList), [("./c8_simulation.csv".toList)]⟩

/-- A filesystem holding `./c8_simulation.csv` with the 3-particle,
1-step dataset. -/
def fsC8 : FileSystem :=
  ⟨[(os_path_join (".".toList) ("c8_simulation.csv".toList), exampleDF)]⟩

/-- With enough fuel, `decDigits` agrees with `Nat.digits 10`. -/
theorem decDigits_eq_digits : ∀ (fuel n : Nat), n ≤ fuel → decDigits fuel n = Nat.digits 10 n := by
  intro fuel
  induction fuel with
  | zero =>
    intro n hn
    have h0 : n = 0 := Nat.le_zero.mp hn
    subst h0
    simp [decDigits]
  | succ f ih =>
    intro n hn
    by_cases h0 : n = 0
    · subst h0; simp [decDigits]
    · rw [decDigits, if_neg h0,
        Nat.digits_def' (by norm_num : (1 : Nat) < 10) (Nat.pos_of_ne_zero h0),
        ih (n / 10) (by
          have := Nat.div_lt_self (Nat.pos_of_ne_zero h0) (by norm_num : (1 : Nat) < 10)
          omega)]

/-- The function `Nat.digitChar` is injective below 10. -/
theorem digitChar_inj_lt : ∀ d1, d1 < 10 → ∀ d2, d2 < 10 →
    Nat.digitChar d1 = Nat.digitChar d2 → d1 = d2 := by decide

/-- Mapping `Nat.digitChar` over digit lists is injective. -/
theorem map_digitChar_inj : ∀ (l1 l2 : List Nat), (∀ x ∈ l1, x < 10) → (∀ x ∈ l2, x < 10) →
    l1.map Nat.digitChar = l2.map Nat.digitChar → l1 = l2 := by
  intro l1
  induction l1 with
  | nil =>
    intro l2 _ _ h
    cases l2 with
    | nil => rfl
    | cons b t2 => simp at h
  | cons a t ih =>
    intro l2 h1 h2 h
    cases l2 with
    | nil => simp at h
    | cons b t2 =>
      simp only [List.map_cons, List.cons.injEq] at h
      have ha := digitChar_inj_lt a (h1 a (by simp)) b (h2 b (by simp)) h.1
      subst ha
      rw [ih t2 (fun x hx => h1 x (by simp [hx])) (fun x hx => h2 x (by simp [hx])) h.2]

/-- Decimal rendering of naturals is injective. -/
theorem natStr_injective : Function.Injective natStr := by
  intro a b h
  unfold natStr at h
  by_cases ha : a = 0 <;> by_cases hb : b = 0
  · omega
  · exfalso
    rw [if_pos ha, if_neg hb, decDigits_eq_digits b b le_rfl] at h
    have hlen : (1 : Nat) = (Nat.digits 10 b).length := by
      have := congrArg List.length h
      simpa using this
    obtain ⟨d, hd⟩ := List.length_eq_one.mp hlen.symm
    rw [hd] at h
    simp only [List.map_cons, List.map_nil, List.reverse_cons, List.reverse_nil,
      List.nil_append, List.cons.injEq] at h
    have hd10 : d < 10 := Nat.digits_lt_base (by norm_num) (by rw [hd]; simp)
    have hd0 : (0 : Nat) = d := digitChar_inj_lt 0 (by norm_num) d hd10 h.1
    have : b = 0 := by
      have := Nat.ofDigits_digits 10 b
      rw [hd, ← hd0] at this
      simpa [Nat.ofDigits] using this.symm
    exact hb this
  · exfalso
    rw [if_neg ha, if_pos hb, decDigits_eq_digits a a le_rfl] at h
    have hlen : (Nat.digits 10 a).length = 1 := by
      have := congrArg List.length h
      simpa using this
    obtain ⟨d, hd⟩ := List.length_eq_one.mp hlen
    rw [hd] at h
    simp only [List.map_cons, List.map_nil, List.reverse_cons, List.reverse_nil,
      List.nil_append, List.cons.injEq] at h
    have hd10 : d < 10 := Nat.digits_lt_base (by norm_num) (by rw [hd]; simp)
    have hd0 : d = 0 := digitChar_inj_lt d hd10 0 (by norm_num) h.1
    have : a = 0 := by
      have := Nat.ofDigits_digits 10 a
      rw [hd, hd0] at this
      simpa [Nat.ofDigits] using this.symm
    exact ha this
  · rw [if_neg ha, if_neg hb, decDigits_eq_digits a a le_rfl,
      decDigits_eq_digits b b le_rfl, List.reverse_inj] at h
    have := map_digitChar_inj (Nat.digits 10 a) (Nat.digits 10 b)
      (fun x hx => Nat.digits_lt_base (by norm_num) hx)
      (fun x hx => Nat.digits_lt_base (by norm_num) hx) h
    have h2 := congrArg (Nat.ofDigits 10) this
    rwa [Nat.ofDigits_digits, Nat.ofDigits_digits] at h2

/-! ### Helper lemmas: column names -/

/-- Two scheme column names with equal-length axis suffixes agree exactly
when the particle indices and the suffixes agree. -/
theorem particle_name_inj {i j : Nat} {s t : PyStr}
    (h : ("Particle".toList) ++ natStr i ++ s = ("Particle".toList) ++ natStr j ++ t)
    (hst : s.length = t.length) : i = j ∧ s = t := by
  rw [List.append_assoc, List.append_assoc] at h
  have h2 := List.append_cancel_left h
  have h3 := List.append_inj' h2 hst
  exact ⟨natStr_injective h3.1, h3.2⟩

theorem colX_inj {i j : Nat} (h : colX i = colX j) : i = j :=
  (particle_name_inj h rfl).1

theorem colY_inj {i j : Nat} (h : colY i = colY j) : i = j :=
  (particle_name_inj h rfl).1

theorem colZ_inj {i j : Nat} (h : colZ i = colZ j) : i = j :=
  (particle_name_inj h rfl).1

theorem colX_ne_colY (i j : Nat) : colX i ≠ colY j := by
  intro h
  rw [colX, colY] at h
  have := (particle_name_inj h rfl).2
  exact absurd this (by decide)

theorem colX_ne_colZ (i j : Nat) : colX i ≠ colZ j := by
  intro h
  rw [colX, colZ] at h
  have := (particle_name_inj h rfl).2
  exact absurd this (by decide)

theorem colY_ne_colZ (i j : Nat) : colY i ≠ colZ j := by
  intro h
  rw [colY, colZ] at h
  have := (particle_name_inj h rfl).2
  exact absurd this (by decide)

/-- Every scheme column name starts with `Particle`. -/
theorem particle_isPrefixOf {i : Nat} {s : PyStr} :
    List.isPrefixOf ("Particle".toList) (("Particle".toList) ++ natStr i ++ s) = true := by
  rw [List.isPrefixOf_iff_prefix, List.append_assoc]
  exact List.prefix_append _ _

theorem length_particleColumns (n : Nat) : (particleColumns n).length = 3 * n := by
  induction n with
  | zero => rfl
  | succ m ih => simp [particleColumns, ih]; omega

theorem colX_not_mem_particleColumns : ∀ {n i : Nat}, n ≤ i → colX i ∉ particleColumns n := by
  intro n
  induction n with
  | zero => intro i _; simp [particleColumns]
  | succ m ih =>
    intro i hi hmem
    rcases List.mem_append.mp hmem with h | h
    · exact ih (by omega) h
    · simp only [List.mem_cons, List.not_mem_nil, or_false, List.mem_singleton] at h
      rcases h with h | h | h
      · have := colX_inj h; omega
      · exact colX_ne_colY i m h
      · exact colX_ne_colZ i m h

theorem colY_not_mem_particleColumns : ∀ {n i : Nat}, n ≤ i → colY i ∉ particleColumns n := by
  intro n
  induction n with
  | zero => intro i _; simp [particleColumns]
  | succ m ih =>
    intro i hi hmem
    rcases List.mem_append.mp hmem with h | h
    · exact ih (by omega) h
    · simp only [List.mem_cons, List.not_mem_nil, or_false, List.mem_singleton] at h
      rcases h with h | h | h
      · exact colX_ne_colY m i h.symm
      · have := colY_inj h; omega
      · exact colY_ne_colZ i m h

theorem colZ_not_mem_particleColumns : ∀ {n i : Nat}, n ≤ i → colZ i ∉ particleColumns n := by
  intro n
  induction n with
  | zero => intro i _; simp [particleColumns]
  | succ m ih =>
    intro i hi hmem
    rcases List.mem_append.mp hmem with h | h
    · exact ih (by omega) h
    · simp only [List.mem_cons, List.not_mem_nil, or_false, List.mem_singleton] at h
      rcases h with h | h | h
      · exact colX_ne_colZ m i h.symm
      · exact colY_ne_colZ m i h.symm
      · have := colZ_inj h; omega

/-! ### Helper lemmas: indexOf? -/

theorem indexOf?_append_of_some {α : Type} [BEq α] {l1 : List α} {a : α} {k : Nat}
    (l2 : List α) (h : l1.indexOf? a = some k) : (l1 ++ l2).indexOf? a = some k := by
  induction l1 generalizing k with
  | nil => simp at h
  | cons x t ih =>
    rw [List.indexOf?_cons] at h
    rw [List.cons_append, List.indexOf?_cons]
    by_cases hx : (x == a) = true
    · rw [if_pos hx] at h ⊢; exact h
    · rw [if_neg hx] at h ⊢
      obtain ⟨k', hk', rfl⟩ := Option.map_eq_some'.mp h
      rw [ih hk']
      rfl

theorem indexOf?_append_of_not_mem {α : Type} [BEq α] [LawfulBEq α] {l1 : List α} {a : α}
    (l2 : List α) (h : a ∉ l1) :
    (l1 ++ l2).indexOf? a = (l2.indexOf? a).map (l1.length + ·) := by
  induction l1 with
  | nil => simp
  | cons x t ih =>
    have hx : (x == a) = false := by
      simp only [beq_eq_false_iff_ne, ne_eq]
      intro hxa
      exact h (by rw [hxa]; exact List.mem_cons_self _ _)
    rw [List.cons_append, List.indexOf?_cons, if_neg (by simp [hx]),
      ih (fun hm => h (List.mem_cons_of_mem _ hm)), Option.map_map]
    congr 1
    funext k
    simp [Function.comp]
    omega

/-- In the scheme header for `n` particles, `Particle{i}_X` sits at
column position `3 * i`. -/
theorem indexOf?_particleColumns_X : ∀ {n i : Nat}, i < n →
    (particleColumns n).indexOf? (colX i) = some (3 * i) := by
  intro n
  induction n with
  | zero => intro i hi; omega
  | succ m ih =>
    intro i hi
    rw [particleColumns]
    rcases Nat.lt_or_ge i m with h | h
    · exact indexOf?_append_of_some _ (ih h)
    · have him : i = m := by omega
      subst him
      rw [indexOf?_append_of_not_mem _ (colX_not_mem_particleColumns le_rfl),
        length_particleColumns]
      simp [List.indexOf?_cons]

/-- In the scheme header for `n` particles, `Particle{i}_Y` sits at
column position `3 * i + 1`. -/
theorem indexOf?_particleColumns_Y : ∀ {n i : Nat}, i < n →
    (particleColumns n).indexOf? (colY i) = some (3 * i + 1) := by
  intro n
  induction n with
  | zero => intro i hi; omega
  | succ m ih =>
    intro i hi
    rw [particleColumns]
    rcases Nat.lt_or_ge i m with h | h
    · exact indexOf?_append_of_some _ (ih h)
    · have him : i = m := by omega
      subst him
      rw [indexOf?_append_of_not_mem _ (colY_not_mem_particleColumns le_rfl),
        length_particleColumns]
      have hxy : (colX i == colY i) = false := by
        simp only [beq_eq_false_iff_ne, ne_eq]
        exact colX_ne_colY i i
      simp [List.indexOf?_cons, hxy]

/-- In the scheme header for `n` particles, `Particle{i}_Z` sits at
column position `3 * i + 2`. -/
theorem indexOf?_particleColumns_Z : ∀ {n i : Nat}, i < n →
    (particleColumns n).indexOf? (colZ i) = some (3 * i + 2) := by
  intro n
  induction n with
  | zero => intro i hi; omega
  | succ m ih =>
    intro i hi
    rw [particleColumns]
    rcases Nat.lt_or_ge i m with h | h
    · exact indexOf?_append_of_some _ (ih h)
    · have him : i = m := by omega
      subst him
      rw [indexOf?_append_of_not_mem _ (colZ_not_mem_particleColumns le_rfl),
        length_particleColumns]
      have hxz : (colX i == colZ i) = false := by
        simp only [beq_eq_false_iff_ne, ne_eq]
        exact colX_ne_colZ i i
      have hyz : (colY i == colZ i) = false := by
        simp only [beq_eq_false_iff_ne, ne_eq]
        exact colY_ne_colZ i i
      simp [List.indexOf?_cons, hxz, hyz]

/-- Under the naming scheme, extraction of a particle index below the
file's particle count returns the three column series. -/
theorem extract_ok_of_lt {df : DataFrame} {n i : Nat}
    (hc : df.columns = particleColumns n) (hi : i < n) :
    extract_particle_positions df i =
      .ok (df.rows.map (fun r => r.getD (3 * i) 0),
        df.rows.map (fun r => r.getD (3 * i + 1) 0),
        df.rows.map (fun r => r.getD (3 * i + 2) 0)) := by
  rw [extract_particle_positions]
  rw [DataFrame.col?, hc, indexOf?_particleColumns_X hi]
  rw [DataFrame.col?, hc, indexOf?_particleColumns_Y hi]
  rw [DataFrame.col?, hc, indexOf?_particleColumns_Z hi]
  rfl

/-- Under the naming scheme, extraction of a particle index at or beyond
the file's particle count raises `KeyError` on the X column. -/
theorem extract_err_of_ge {df : DataFrame} {n i : Nat}
    (hc : df.columns = particleColumns n) (hi : n ≤ i) :
    extract_particle_positions df i = .error (.keyError (colX i)) := by
  rw [extract_particle_positions]
  have hnone : df.col? (colX i) = none := by
    rw [DataFrame.col?, hc]
    rw [List.indexOf?_eq_none_iff.mpr ?ne]
    · rfl
    case ne =>
      intro x hx hbeq
      have hxa : x = colX i := by simpa using hbeq
      subst hxa
      exact colX_not_mem_particleColumns hi hx
  rw [hnone]

/-! ### Helper lemmas: Except loops -/

theorem foldlM_except_ok {ε α β : Type} {l : List α} (f : β → α → Except ε β) (g : β → α → β)
    (hf : ∀ b : β, ∀ a ∈ l, f b a = .ok (g b a)) :
    ∀ b : β, l.foldlM f b = .ok (l.foldl g b) := by
  induction l with
  | nil => intro b; rfl
  | cons x t ih =>
    intro b
    rw [List.foldlM_cons, hf b x (List.mem_cons_self _ _)]
    show t.foldlM f (g b x) = _
    rw [ih (fun b a ha => hf b a (List.mem_cons_of_mem _ ha))]
    rfl

theorem mapM_except_ok {ε α β : Type} {l : List α} (f : α → Except ε β) (g : α → β)
    (hf : ∀ a ∈ l, f a = .ok (g a)) : l.mapM f = .ok (l.map g) := by
  induction l with
  | nil => rfl
  | cons x t ih =>
    rw [List.mapM_cons, hf x (List.mem_cons_self _ _)]
    show t.mapM f >>= _ = _
    rw [ih (fun a ha => hf a (List.mem_cons_of_mem _ ha))]
    rfl

theorem mapM_except_cons_error {ε α β : Type} {e : ε} {x : α} (t : List α)
    (f : α → Except ε β) (hx : f x = .error e) : (x :: t).mapM f = .error e := by
  rw [List.mapM_cons, hx]
  rfl

/-- A left fold that accumulates sums over `range m` equals the
`Finset.range` sum. -/
theorem foldl_add_range (h : Nat → ℝ) : ∀ (m : Nat) (b : ℝ),
    (List.range m).foldl (fun acc i => acc + h i) b = b + ∑ i ∈ Finset.range m, h i := by
  intro m
  induction m with
  | zero => intro b; simp
  | succ k ih =>
    intro b
    rw [List.range_succ, List.foldl_append, ih, Finset.sum_range_succ, List.foldl_cons,
      List.foldl_nil, add_assoc]

theorem except_bind_ok {ε α β : Type} (a : α) (f : α → Except ε β) :
    (Except.ok a : Except ε α) >>= f = f a := rfl

theorem except_bind_err {ε α β : Type} (e : ε) (f : α → Except ε β) :
    (Except.error e : Except ε α) >>= f = .error e := rfl

theorem except_pure_eq {ε α : Type} (a : α) : (pure a : Except ε α) = .ok a := rfl

/-- The loop body of `_analyze_rope_properties` when both extractions
succeed: the segment length is the square root of the squared coordinate
differences at the step. -/
theorem segment_length_ok {data : DataFrame} {i : Nat} {x1 y1 z1 x2 y2 z2 : List ℝ}
    (step : Nat) (h1 : extract_particle_positions data i = .ok (x1, y1, z1))
    (h2 : extract_particle_positions data (i + 1) = .ok (x2, y2, z2)) :
    segment_length data step i = .ok (Real.sqrt ((x2.getD step 0 - x1.getD step 0) ^ 2 +
      (y2.getD step 0 - y1.getD step 0) ^ 2 + (z2.getD step 0 - z1.getD step 0) ^ 2)) := by
  simp only [segment_length, h1, h2, except_bind_ok]
  rfl

theorem segment_length_err_fst {data : DataFrame} {i : Nat} {e : PyError} (step : Nat)
    (h1 : extract_particle_positions data i = .error e) :
    segment_length data step i = .error e := by
  simp only [segment_length, h1, except_bind_err]

theorem segment_length_err_snd {data : DataFrame} {i : Nat} {e : PyError}
    {x1 y1 z1 : List ℝ} (step : Nat)
    (h1 : extract_particle_positions data i = .ok (x1, y1, z1))
    (h2 : extract_particle_positions data (i + 1) = .error e) :
    segment_length data step i = .error e := by
  simp only [segment_length, h1, h2, except_bind_ok, except_bind_err]

/-- A successfully computed segment length is a square root, hence
nonnegative. -/
theorem segment_length_nonneg {data : DataFrame} {step i : Nat} {s : ℝ}
    (h : segment_length data step i = .ok s) : 0 ≤ s := by
  rcases hx : extract_particle_positions data i with e | ⟨x1, y1, z1⟩
  · rw [segment_length_err_fst step hx] at h; simp at h
  · rcases hy : extract_particle_positions data (i + 1) with e | ⟨x2, y2, z2⟩
    · rw [segment_length_err_snd step hx hy] at h; simp at h
    · rw [segment_length_ok step hx hy] at h
      simp only [Except.ok.injEq] at h
      rw [← h]
      exact Real.sqrt_nonneg _

/-- When every needed extraction succeeds, the inner loop computes the
sum over `i` in `[0, n_particles - 2]` of the Euclidean distances between
consecutive particles at the step. -/
theorem rope_length_at_step_ok {data : DataFrame} {n : Nat} (X Y Z : Nat → List ℝ)
    (hex : ∀ i, i < n → extract_particle_positions data i = .ok (X i, Y i, Z i))
    (step : Nat) :
    rope_length_at_step data n step = .ok (∑ i ∈ Finset.range (n - 1),
      euclidean_dist ((X i).getD step 0, (Y i).getD step 0, (Z i).getD step 0)
        ((X (i + 1)).getD step 0, (Y (i + 1)).getD step 0, (Z (i + 1)).getD step 0)) := by
  rw [rope_length_at_step]
  have hf : ∀ b : ℝ, ∀ a ∈ List.range (n - 1),
      (fun total_length i => do
        let s ← segment_length data step i
        pure (total_length + s) : ℝ → Nat → Except PyError ℝ) b a =
      .ok (b + euclidean_dist ((X a).getD step 0, (Y a).getD step 0, (Z a).getD step 0)
        ((X (a + 1)).getD step 0, (Y (a + 1)).getD step 0, (Z (a + 1)).getD step 0)) := by
    intro b a ha
    have ha' : a < n - 1 := List.mem_range.mp ha
    have hs := segment_length_ok step (hex a (by omega)) (hex (a + 1) (by omega))
    simp only [hs, except_bind_ok]
    rfl
  rw [foldlM_except_ok _ _ hf, foldl_add_range, zero_add]

/-- A successfully computed per-step rope length is nonnegative: it is a
sum of square roots starting from zero. -/
theorem rope_length_at_step_nonneg {data : DataFrame} {n step : Nat} {y : ℝ}
    (h : rope_length_at_step data n step = .ok y) : 0 ≤ y := by
  rw [rope_length_at_step] at h
  suffices hgen : ∀ (l : List Nat) (b : ℝ), 0 ≤ b →
      l.foldlM (fun total_length i => do
        let s ← segment_length data step i
        pure (total_length + s)) b = .ok y → 0 ≤ y by
    exact hgen _ 0 le_rfl h
  intro l
  induction l with
  | nil =>
    intro b hb hfold
    simp only [List.foldlM_nil, except_pure_eq, Except.ok.injEq] at hfold
    rwa [← hfold]
  | cons x t ih =>
    intro b hb hfold
    rw [List.foldlM_cons] at hfold
    rcases hs : segment_length data step x with e | s
    · simp only [hs, except_bind_err, except_bind_ok] at hfold
      simp at hfold
    · simp only [hs, except_bind_ok, except_pure_eq] at hfold
      exact ih (b + s) (by have := segment_length_nonneg hs; linarith) hfold

/-- With at most one configured particle the inner loop body never runs
and the per-step rope length is exactly zero. -/
theorem rope_length_at_step_trivial {data : DataFrame} {n : Nat} (hn : n ≤ 1) (step : Nat) :
    rope_length_at_step data n step = .ok 0 := by
  rw [rope_length_at_step]
  have : n - 1 = 0 := by omega
  rw [this]
  rfl


/-- A monadic left fold over `l ++ x :: t` fails with `x`'s error when
every iteration over `l` succeeds and `x` fails from any accumulator. -/
theorem foldlM_except_first_error {ε α β : Type} {e : ε} (f : β → α → Except ε β)
    (x : α) (hx : ∀ b : β, f b x = .error e) (t : List α) :
    ∀ l : List α, (∀ b : β, ∀ a ∈ l, ∃ v, f b a = .ok v) →
    ∀ b : β, (l ++ x :: t).foldlM f b = .error e := by
  intro l
  induction l with
  | nil =>
    intro _ b
    rw [List.nil_append, List.foldlM_cons, hx]
    rfl
  | cons a' t' ih =>
    intro hf b
    obtain ⟨v, hv⟩ := hf b a' (List.mem_cons_self _ _)
    rw [List.cons_append, List.foldlM_cons, hv, except_bind_ok]
    exact ih (fun b' a ha => hf b' a (List.mem_cons_of_mem _ ha)) v

/-- When the configured count `m` exceeds the file's particle count `n`
(scheme header) and `m ≥ 2`, the inner loop raises `KeyError` on column
`Particle{n}_X`. -/
theorem rope_length_at_step_err {data : DataFrame} {n m : Nat}
    (hc : data.columns = particleColumns n) (hnm : n < m) (hm : 2 ≤ m) (step : Nat) :
    rope_length_at_step data m step = .error (.keyError (colX n)) := by
  rw [rope_length_at_step]
  obtain ⟨d, hd⟩ : ∃ d, m - 1 = (n - 1) + (d + 1) := ⟨m - 1 - (n - 1) - 1, by omega⟩
  simp only [hd, List.range_add, List.range_succ_eq_map, List.map_cons, Nat.add_zero]
  refine foldlM_except_first_error _ _ ?hx _ _ ?hf 0
  case hx =>
    intro b
    rcases Nat.eq_zero_or_pos n with hn | hn
    · subst hn
      have hseg := segment_length_err_fst step (extract_err_of_ge hc (le_refl 0))
      simp only [Nat.zero_sub, hseg, except_bind_err]
    · have h1 := extract_ok_of_lt hc (show n - 1 < n by omega)
      have hseg := segment_length_err_snd step h1
        (extract_err_of_ge hc (show n ≤ n - 1 + 1 by omega))
      have hcol : colX (n - 1 + 1) = colX n := by
        congr 1
        omega
      rw [hcol] at hseg
      simp only [hseg, except_bind_err]
  case hf =>
    intro b a ha
    have ha' : a < n - 1 := List.mem_range.mp ha
    have h1 := extract_ok_of_lt hc (show a < n by omega)
    have h2 := extract_ok_of_lt hc (show a + 1 < n by omega)
    obtain ⟨s, hs⟩ : ∃ s, segment_length data step a = .ok s :=
      ⟨_, segment_length_ok step h1 h2⟩
    exact ⟨b + s, by simp only [hs, except_bind_ok]; rfl⟩

/-- Inversion for a successful `mapM` over `Except`: the output has the
input's length and every output member is the ok-value of some input. -/
theorem mapM_except_ok_inv {ε α β : Type} {l : List α} {L : List β} (f : α → Except ε β)
    (h : l.mapM f = .ok L) : L.length = l.length ∧ ∀ y ∈ L, ∃ a ∈ l, f a = .ok y := by
  induction l generalizing L with
  | nil =>
    simp only [List.mapM_nil, except_pure_eq, Except.ok.injEq] at h
    subst h
    exact ⟨rfl, by simp⟩
  | cons x t ih =>
    rw [List.mapM_cons] at h
    rcases hfx : f x with e | y
    · rw [hfx, except_bind_err] at h
      simp at h
    · rw [hfx, except_bind_ok] at h
      rcases hmt : t.mapM f with e2 | ys
      · rw [hmt, except_bind_err] at h
        simp at h
      · rw [hmt, except_bind_ok, except_pure_eq] at h
        simp only [Except.ok.injEq] at h
        subst h
        obtain ⟨hlen, hmem⟩ := ih hmt
        refine ⟨by simp [hlen], ?_⟩
        intro z hz
        rcases List.mem_cons.mp hz with hz | hz
        · exact ⟨x, List.mem_cons_self _ _, by rw [hfx, hz]⟩
        · obtain ⟨a, ha, hfa⟩ := hmem z hz
          exact ⟨a, List.mem_cons_of_mem _ ha, hfa⟩

/-- When every needed extraction succeeds, `_analyze_rope_properties`
computes, for every step, the sum of Euclidean distances between
consecutive particles. -/
theorem rope_lengths_ok {data : DataFrame} {n : Nat} (X Y Z : Nat → List ℝ)
    (hex : ∀ i, i < n → extract_particle_positions data i = .ok (X i, Y i, Z i)) (k : Nat) :
    rope_lengths data n k = .ok ((List.range k).map (fun step =>
      ∑ i ∈ Finset.range (n - 1),
        euclidean_dist ((X i).getD step 0, (Y i).getD step 0, (Z i).getD step 0)
          ((X (i + 1)).getD step 0, (Y (i + 1)).getD step 0, (Z (i + 1)).getD step 0))) := by
  rw [rope_lengths]
  exact mapM_except_ok _ _ (fun s _ => rope_length_at_step_ok X Y Z hex s)

/-- When the configured count `m` exceeds the file's particle count `n`
(scheme header), `m ≥ 2` and there is at least one step, the rope-length
loop raises `KeyError` on column `Particle{n}_X`. -/
theorem rope_lengths_err {data : DataFrame} {n m k : Nat}
    (hc : data.columns = particleColumns n) (hnm : n < m) (hm : 2 ≤ m) (hk : 1 ≤ k) :
    rope_lengths data m k = .error (.keyError (colX n)) := by
  rw [rope_lengths]
  obtain ⟨j, rfl⟩ : ∃ j, k = j + 1 := ⟨k - 1, by omega⟩
  rw [List.range_succ_eq_map]
  exact mapM_except_cons_error _ _ (rope_length_at_step_err hc hnm hm 0)

/-- The scheme header for `n` particles has exactly `3 * n` columns whose
name starts with `Particle`. -/
theorem filter_particle_prefix (n : Nat) :
    ((particleColumns n).filter
      (fun col => List.isPrefixOf ("Particle".toList) col)).length = 3 * n := by
  induction n with
  | zero => rfl
  | succ m ih =>
    have h1 : List.isPrefixOf ("Particle".toList) (colX m) = true := by
      rw [colX]; exact particle_isPrefixOf
    have h2 : List.isPrefixOf ("Particle".toList) (colY m) = true := by
      rw [colY]; exact particle_isPrefixOf
    have h3 : List.isPrefixOf ("Particle".toList) (colZ m) = true := by
      rw [colZ]; exact particle_isPrefixOf
    rw [particleColumns, List.filter_append, List.length_append, ih,
      List.filter_cons_of_pos (by exact h1), List.filter_cons_of_pos (by exact h2),
      List.filter_cons_of_pos (by exact h3), List.filter_nil]
    simp
    omega

/-! ### Concrete data for witnesses -/

theorem exampleDF_extract : ∀ i, i < 3 →
    extract_particle_positions exampleDF i = .ok (exampleX i, exampleY i, exampleZ i) := by
  intro i hi
  interval_cases i <;> rfl

/-! ### Claims -/

/-- Claim C1: for every loaded dataset whose extractions succeed and
every step index, `_analyze_rope_properties` computes the step's total
length as the sum of Euclidean distances between consecutive particles
`i` and `i + 1` for `i` in `[0, configured-particle-count − 2]`; in
particular, for the 3-particle, 1-step dataset with particles at
`(0,0,0)`, `(1,0,0)`, `(1,1,0)`, the computed total length equals `2.0`. -/
theorem claim_C1 :
    (∀ (data : DataFrame) (n k : Nat) (X Y Z : Nat → List ℝ),
      (∀ i, i < n → extract_particle_positions data i = .ok (X i, Y i, Z i)) →
      rope_lengths data n k = .ok ((List.range k).map (fun step =>
        ∑ i ∈ Finset.range (n - 1),
          euclidean_dist ((X i).getD step 0, (Y i).getD step 0, (Z i).getD step 0)
            ((X (i + 1)).getD step 0, (Y (i + 1)).getD step 0, (Z (i + 1)).getD step 0)))) ∧
    rope_lengths exampleDF 3 1 = .ok [2] := by
  constructor
  · intro data n k X Y Z hex
    exact rope_lengths_ok X Y Z hex k
  · have hr : List.range 1 = [0] := rfl
    rw [rope_lengths_ok exampleX exampleY exampleZ exampleDF_extract 1,
      hr, List.map_cons, List.map_nil]
    norm_num [Finset.sum_range_succ, Finset.sum_range_one, euclidean_dist,
      exampleX, exampleY, exampleZ, List.getD, Real.sqrt_one]

/-- Witness for C1: the general sum formula applied to the concrete
3-particle, 1-step dataset. -/
theorem claim_C1_witness :
    rope_lengths exampleDF 3 1 = .ok ((List.range 1).map (fun step =>
      ∑ i ∈ Finset.range 2,
        euclidean_dist ((exampleX i).getD step 0, (exampleY i).getD step 0,
            (exampleZ i).getD step 0)
          ((exampleX (i + 1)).getD step 0, (exampleY (i + 1)).getD step 0,
            (exampleZ (i + 1)).getD step 0))) :=
  claim_C1.1 exampleDF 3 1 exampleX exampleY exampleZ exampleDF_extract

/-- Claim C9: a successfully computed rope-length series has exactly
`num_steps` entries, every entry is nonnegative, and with a configured
particle count of 1 or 0 every entry is exactly 0. -/
theorem claim_C9 : ∀ (data : DataFrame) (n k : Nat) (L : List ℝ),
    rope_lengths data n k = .ok L →
    L.length = k ∧ (∀ x ∈ L, 0 ≤ x) ∧ (n ≤ 1 → ∀ x ∈ L, x = 0) := by
  intro data n k L h
  rw [rope_lengths] at h
  obtain ⟨hlen, hmem⟩ := mapM_except_ok_inv _ h
  refine ⟨by simpa using hlen, ?_, ?_⟩
  · intro x hx
    obtain ⟨s, _, hs⟩ := hmem x hx
    exact rope_length_at_step_nonneg hs
  · intro hn x hx
    obtain ⟨s, _, hs⟩ := hmem x hx
    rw [rope_length_at_step_trivial hn] at hs
    simp only [Except.ok.injEq] at hs
    exact hs.symm

/-- Witness for C9: the invariants evaluated on a concrete single-step
run with one configured particle. -/
theorem claim_C9_witness :
    ([(0 : ℝ)].length = 1 ∧ (∀ x ∈ [(0 : ℝ)], 0 ≤ x) ∧
      ((1 : Nat) ≤ 1 → ∀ x ∈ [(0 : ℝ)], x = 0)) :=
  claim_C9 exampleDF 1 1 [0] rfl

/-- Claim C2: for a CSV dataset following the `Particle{i}_{X,Y,Z}`
naming convention with `n` particles and `k` data rows,
`load_simulation_data` reports `num_steps = k` and `num_particles = n`. -/
theorem claim_C2 : ∀ (fs : FileSystem) (a : RopeStateAnalyzer) (filename : PyStr)
    (df : DataFrame) (n k : Nat),
    fs.files.lookup (os_path_join a.csv_directory filename) = some df →
    df.columns = particleColumns n → df.rows.length = k →
    load_simulation_data fs a filename = .ok (df, n, k) := by
  intro fs a filename df n k hlk hc hk
  simp only [load_simulation_data, hlk]
  rw [hc, filter_particle_prefix, hk]
  have h3 : 3 * n / 3 = n := by omega
  rw [h3]

/-- Witness for C2: the loader evaluated on the concrete 3-particle,
1-step dataset. -/
theorem claim_C2_witness :
    load_simulation_data ⟨[(os_path_join (".".toList) ("a_simulation.csv".toList), exampleDF)]⟩
      ⟨30, 10, (".".toList), []⟩ ("a_simulation.csv".toList) = .ok (exampleDF, 3, 1) :=
  claim_C2 _ _ _ exampleDF 3 1 rfl rfl rfl

/-- Claim C3: under the naming scheme with `n` particles and `k` rows,
extraction of a valid particle index returns the three column series, in
row order, each of length `k`; the columns `Particle{idx}_X`,
`Particle{idx}_Y`, `Particle{idx}_Z` sit at positions `3 * idx`,
`3 * idx + 1`, `3 * idx + 2` of the header. -/
theorem claim_C3 : ∀ (df : DataFrame) (n k idx : Nat),
    df.columns = particleColumns n → df.rows.length = k → idx < n →
    extract_particle_positions df idx =
      .ok (df.rows.map (fun r => r.getD (3 * idx) 0),
        df.rows.map (fun r => r.getD (3 * idx + 1) 0),
        df.rows.map (fun r => r.getD (3 * idx + 2) 0)) ∧
    (df.rows.map (fun r => r.getD (3 * idx) 0)).length = k ∧
    (df.rows.map (fun r => r.getD (3 * idx + 1) 0)).length = k ∧
    (df.rows.map (fun r => r.getD (3 * idx + 2) 0)).length = k ∧
    df.columns.indexOf? (colX idx) = some (3 * idx) ∧
    df.columns.indexOf? (colY idx) = some (3 * idx + 1) ∧
    df.columns.indexOf? (colZ idx) = some (3 * idx + 2) := by
  intro df n k idx hc hk hidx
  refine ⟨extract_ok_of_lt hc hidx, ?_, ?_, ?_, ?_, ?_, ?_⟩
  · rw [List.length_map, hk]
  · rw [List.length_map, hk]
  · rw [List.length_map, hk]
  · rw [hc]; exact indexOf?_particleColumns_X hidx
  · rw [hc]; exact indexOf?_particleColumns_Y hidx
  · rw [hc]; exact indexOf?_particleColumns_Z hidx

/-- Witness for C3: extraction of particle 1 from the concrete
3-particle, 1-step dataset. -/
theorem claim_C3_witness :
    extract_particle_positions exampleDF 1 =
      .ok (exampleDF.rows.map (fun r => r.getD 3 0),
        exampleDF.rows.map (fun r => r.getD 4 0),
        exampleDF.rows.map (fun r => r.getD 5 0)) ∧
    (exampleDF.rows.map (fun r => r.getD 3 0)).length = 1 ∧
    (exampleDF.rows.map (fun r => r.getD 4 0)).length = 1 ∧
    (exampleDF.rows.map (fun r => r.getD 5 0)).length = 1 ∧
    exampleDF.columns.indexOf? (colX 1) = some 3 ∧
    exampleDF.columns.indexOf? (colY 1) = some 4 ∧
    exampleDF.columns.indexOf? (colZ 1) = some 5 :=
  claim_C3 exampleDF 3 1 1 rfl rfl (by norm_num)

/-- Counterexample to C4 as stated: with configured count 1 and a
one-step file whose actual particle count is 0 (smaller than the
configured count), `_analyze_rope_properties` completes normally with no
key-lookup error: the inner loop over `range(1 - 1)` is empty. -/
theorem claim_C4_counterexample :
    analyze_rope_properties fsC4 analyzerC4 ("run_simulation.csv".toList) =
      ([.dataLoaded, .lengthPlotSaved, .statsPrinted], none) := rfl

/-- Claim C4 (amended): extraction fails with `KeyError` whenever the
requested particle index is at or beyond the file's particle count; and
`_analyze_rope_properties` on a file whose particle count is smaller than
the configured count raises `KeyError`, provided the configured count is
at least 2 and the file has at least one step. -/
theorem claim_C4 :
    (∀ (df : DataFrame) (n idx : Nat), df.columns = particleColumns n → n ≤ idx →
      extract_particle_positions df idx = .error (.keyError (colX idx))) ∧
    (∀ (fs : FileSystem) (a : RopeStateAnalyzer) (filename : PyStr)
      (df : DataFrame) (n : Nat),
      fs.files.lookup (os_path_join a.csv_directory filename) = some df →
      df.columns = particleColumns n → n < a.n_particles → 2 ≤ a.n_particles →
      df.rows ≠ [] →
      analyze_rope_properties fs a filename =
        ([.dataLoaded], some (.keyError (colX n)))) := by
  constructor
  · intro df n idx hc hi
    exact extract_err_of_ge hc hi
  · intro fs a filename df n hlk hc hnm hm hrows
    have hload : load_simulation_data fs a filename =
        .ok (df, (df.columns.filter
          (fun col => List.isPrefixOf ("Particle".toList) col)).length / 3,
          df.rows.length) := by
      simp only [load_simulation_data, hlk]
    have hk : 1 ≤ df.rows.length := List.length_pos.mpr hrows
    simp only [analyze_rope_properties, hload, rope_lengths_err hc hnm hm hk]

/-- Witness for C4 (amended): both parts at a concrete instance with
actual count 1 and configured count 2. -/
theorem claim_C4_witness :
    extract_particle_positions dfOneParticle 1 = .error (.keyError (colX 1)) ∧
    analyze_rope_properties fsC4w analyzerC4w ("w_simulation.csv".toList) =
      ([.dataLoaded], some (.keyError (colX 1))) :=
  ⟨claim_C4.1 dfOneParticle 1 1 rfl le_rfl,
   claim_C4.2 fsC4w analyzerC4w ("w_simulation.csv".toList) dfOneParticle 1 rfl rfl
     (by decide) (by decide) (List.cons_ne_nil _ _)⟩

/-- Claim C10: on a dataset with zero data rows, the rope-length series
is empty and `_analyze_rope_properties` raises a `ValueError` at
`min(lengths)` after the length plot has already been saved, so it does
not complete normally. -/
theorem claim_C10 : ∀ (fs : FileSystem) (a : RopeStateAnalyzer) (filename : PyStr)
    (df : DataFrame),
    fs.files.lookup (os_path_join a.csv_directory filename) = some df →
    df.rows = [] →
    analyze_rope_properties fs a filename =
      ([.dataLoaded, .lengthPlotSaved],
        some (.valueError ("min arg is an empty sequence".toList))) := by
  intro fs a filename df hlk hrows
  have hload : load_simulation_data fs a filename =
      .ok (df, (df.columns.filter
        (fun col => List.isPrefixOf ("Particle".toList) col)).length / 3,
        df.rows.length) := by
    simp only [load_simulation_data, hlk]
  have hlen : rope_lengths df a.n_particles df.rows.length = .ok [] := by
    rw [hrows]
    rfl
  simp only [analyze_rope_properties, hload, hlen]
  rfl

/-- Witness for C10: the empty-file behavior at a concrete instance. -/
theorem claim_C10_witness :
    analyze_rope_properties fsC10 ⟨30, 2, (".".toList), []⟩ ("e_simulation.csv".toList) =
      ([.dataLoaded, .lengthPlotSaved],
        some (.valueError ("min arg is an empty sequence".toList))) :=
  claim_C10 fsC10 ⟨30, 2, (".".toList), []⟩ ("e_simulation.csv".toList) dfEmpty rfl rfl

/-- Claim C5: `analyze_all_simulations` with no discovered files only
prints a message; otherwise it emits the combined plot and then exactly
one outcome per file in order — `analyzed` on success, `errorLogged`
with the filename and error on failure — independently of other files'
outcomes, so one file's failure never prevents the rest. -/
theorem claim_C5 : ∀ (process : PyStr → Except PyError Unit) (files : List PyStr),
    (files = [] → analyze_all_simulations process files = [.noFilesMessage]) ∧
    (files ≠ [] →
      (analyze_all_simulations process files).length = files.length + 1 ∧
      (analyze_all_simulations process files)[0]? = some .combinedPlot ∧
      ∀ (i : Nat) (f : PyStr), files[i]? = some f →
        (analyze_all_simulations process files)[i + 1]? =
          some (match process (os_path_basename f) with
            | .ok _ => .analyzed f
            | .error e => .errorLogged f e)) := by
  intro process files
  constructor
  · intro h
    subst h
    rfl
  · intro h
    have hne : ¬(files.isEmpty = true) := by
      simpa [List.isEmpty_iff] using h
    rw [analyze_all_simulations, if_neg hne]
    refine ⟨by simp, by simp, ?_⟩
    intro i f hf
    rw [List.getElem?_cons_succ, List.getElem?_map, hf, Option.map_some']

/-- Witness for C5: with the failing file first, its failure is logged
with its name and the following file is still processed. -/
theorem claim_C5_witness :
    (analyze_all_simulations processC5 filesC5)[1]? =
      some (.errorLogged ("dir/bad_simulation.csv".toList)
        (.valueError ("boom".toList))) ∧
    (analyze_all_simulations processC5 filesC5)[2]? =
      some (.analyzed ("dir/good_simulation.csv".toList)) :=
  ⟨(claim_C5 processC5 filesC5).2 (by decide) |>.2.2 0 _ rfl,
   (claim_C5 processC5 filesC5).2 (by decide) |>.2.2 1 _ rfl⟩

/-- Claim C6: `load_simulation_data` fails with `FileNotFoundError` on
the resolved path when it does not exist, and otherwise proceeds to
parse, returning the parsed data with the derived counts. -/
theorem claim_C6 : ∀ (fs : FileSystem) (a : RopeStateAnalyzer) (filename : PyStr),
    (fs.files.lookup (os_path_join a.csv_directory filename) = none →
      load_simulation_data fs a filename =
        .error (.fileNotFound (os_path_join a.csv_directory filename))) ∧
    (∀ df : DataFrame, fs.files.lookup (os_path_join a.csv_directory filename) = some df →
      load_simulation_data fs a filename = .ok (df,
        (df.columns.filter (fun col => List.isPrefixOf ("Particle".toList) col)).length / 3,
        df.rows.length)) := by
  intro fs a filename
  constructor
  · intro h
    simp only [load_simulation_data, h]
  · intro df h
    simp only [load_simulation_data, h]

/-- Witness for C6: a missing and a present path on a concrete
filesystem. -/
theorem claim_C6_witness :
    load_simulation_data fsC4 analyzerC4 ("missing_simulation.csv".toList) =
      .error (.fileNotFound (os_path_join (".".toList) ("missing_simulation.csv".toList))) ∧
    load_simulation_data fsC4 analyzerC4 ("run_simulation.csv".toList) =
      .ok (dfNoParticles, 0, 1) :=
  ⟨(claim_C6 fsC4 analyzerC4 ("missing_simulation.csv".toList)).1 rfl,
   (claim_C6 fsC4 analyzerC4 ("run_simulation.csv".toList)).2 dfNoParticles rfl⟩

/-- Claim C7: discovery over a directory with no name ending in
`simulation.csv` returns the empty sequence (and, being a total
function, raises nothing). -/
theorem claim_C7 : ∀ (csv_directory : PyStr) (listing : List PyStr),
    (∀ f ∈ listing, List.isSuffixOf ("simulation.csv".toList) f = false) →
    find_simulation_files csv_directory listing = [] := by
  intro dir listing h
  have hfil : listing.filter (fun f => List.isSuffixOf ("simulation.csv".toList) f) = [] :=
    List.filter_eq_nil_iff.mpr (fun a ha => by
      intro hsuf
      rw [h a ha] at hsuf
      exact Bool.noConfusion hsuf)
  rw [find_simulation_files, hfil, List.map_nil]

/-- Witness for C7: a concrete listing with no matching file. -/
theorem claim_C7_witness :
    find_simulation_files (".".toList)
      [("readme.txt".toList), ("data.csv".toList), ("simulation.csv.bak".toList)] = [] :=
  claim_C7 (".".toList) _ (by decide)

/-- Claim C8: the palette has 8 colors; `plot_trajectories` always
selects the Python-int indices `0`, `configured ÷ 2`, `configured − 1`
from the analyzer's configured count (any selection it returns is that
list, and it returns it whenever loading and the selected extractions
succeed), while `plot_all_trajectories_combined` selects `0`,
`num_particles ÷ 2`, `num_particles − 1` from each file's own derived
count and colors file `i` with
`simulation_colors[i % len(simulation_colors)]` for every file whose
loading and selected extractions succeed. -/
theorem claim_C8 :
    simulation_colors.length = 8 ∧
    (∀ (fs : FileSystem) (a : RopeStateAnalyzer) (filename : PyStr) (sel : List Int),
      plot_trajectories fs a filename = .ok sel →
      sel = [0, (a.n_particles : Int) / 2, (a.n_particles : Int) - 1]) ∧
    (∀ (fs : FileSystem) (a : RopeStateAnalyzer) (filename : PyStr)
      (df : DataFrame) (np ns : Nat),
      load_simulation_data fs a filename = .ok (df, np, ns) →
      (∃ ws, ([0, (a.n_particles : Int) / 2, (a.n_particles : Int) - 1]).mapM
        (extract_particle_positions_int df) = .ok ws) →
      plot_trajectories fs a filename =
        .ok [0, (a.n_particles : Int) / 2, (a.n_particles : Int) - 1]) ∧
    (∀ (fs : FileSystem) (a : RopeStateAnalyzer) (i : Nat) (filename : PyStr)
      (df : DataFrame) (np ns : Nat),
      a.simulation_files[i]? = some filename →
      load_simulation_data fs a (os_path_basename filename) = .ok (df, np, ns) →
      (∃ ws, ([0, (np : Int) / 2, (np : Int) - 1]).mapM
        (extract_particle_positions_int df) = .ok ws) →
      (⟨filename, simulation_colors.getD (i % simulation_colors.length) [],
        [0, (np : Int) / 2, (np : Int) - 1]⟩ : CombinedEntry) ∈
        plot_all_trajectories_combined fs a) := by
  refine ⟨rfl, ?_, ?_, ?_⟩
  · intro fs a filename sel h
    rcases hload : load_simulation_data fs a filename with e | v
    · simp only [plot_trajectories, hload] at h
      exact Except.noConfusion h
    · obtain ⟨data, np, ns⟩ := v
      simp only [plot_trajectories, hload] at h
      rcases hm : ([0, (a.n_particles : Int) / 2, (a.n_particles : Int) - 1]).mapM
          (extract_particle_positions_int data) with e | ws
      · simp only [hm] at h
        exact Except.noConfusion h
      · simp only [hm, Except.ok.injEq] at h
        exact h.symm
  · intro fs a filename df np ns hload hex
    obtain ⟨ws, hws⟩ := hex
    simp only [plot_trajectories, hload, hws]
  · intro fs a i filename df np ns hget hload hex
    obtain ⟨ws, hws⟩ := hex
    have hne : ¬(a.simulation_files.isEmpty = true) := by
      intro hemp
      rw [List.isEmpty_iff.mp hemp] at hget
      simp at hget
    rw [plot_all_trajectories_combined, if_neg hne]
    apply List.mem_filterMap.mpr
    refine ⟨(i, filename), List.mk_mem_enum_iff_getElem?.mpr (by rw [hget]), ?_⟩
    simp only [hload, hws]

/-- Witness for C8: configured count 2 gives plotted indices `[0, 1, 1]`
regardless of the file's 3 particles, while the combined plot uses the
file-derived count 3 (indices `[0, 1, 2]`) and the first palette color. -/
theorem claim_C8_witness :
    plot_trajectories fsC8 analyzerC8 ("c8_simulation.csv".toList) = .ok [0, 1, 1] ∧
    (⟨("./c8_simulation.csv".toList), ("red".toList), [0, 1, 2]⟩ : CombinedEntry) ∈
      plot_all_trajectories_combined fsC8 analyzerC8 :=
  ⟨claim_C8.2.2.1 fsC8 analyzerC8 ("c8_simulation.csv".toList) exampleDF 3 1 rfl ⟨_, rfl⟩,
   claim_C8.2.2.2 fsC8 analyzerC8 0 ("./c8_simulation.csv".toList) exampleDF 3 1 rfl rfl
     ⟨_, rfl⟩⟩
